import Mathlib

/-!
Verification development for the sagemaker-101-workshop repository.

The only reusable algorithmic component documented by the specification is the
binary-classification model-quality reporting utility
(`util.reporting.generate_binary_classification_report`).  That utility's
implementation file is not part of the source snapshot (only its caller in the
AutoGluon notebook is), so the evaluator below is modelled from the
specification's words.  The `np.split` data-preparation cell of the AutoGluon
notebook and the CloudFormation custom-resource Lambda handler of the
quick-start template are embedded from their source directly.
-/

namespace Reporting

/-- 2x2 confusion matrix of a binary classifier at a fixed decision rule. -/
structure ConfusionMatrix where
  tn : Nat
  fp : Nat
  fn : Nat
  tp : Nat
deriving Repr, DecidableEq

/-- Modelled from the spec: `predicted = 1 if score >= threshold else 0`,
applied elementwise to the score sequence (§3 Decision Threshold). -/
def predFromThreshold (yScore : List ℚ) (t : ℚ) : List Nat :=
  yScore.map (fun s => if t ≤ s then 1 else 0)

/-- Modelled from the spec: the confusion matrix pairs ground-truth labels with
predicted labels positionally and counts the four outcome classes (§3). -/
def confusion (yTrue yPred : List Nat) : ConfusionMatrix :=
  let pairs := yTrue.zip yPred
  { tn := pairs.countP (fun pr => pr.1 != 1 && pr.2 != 1)
    fp := pairs.countP (fun pr => pr.1 != 1 && pr.2 == 1)
    fn := pairs.countP (fun pr => pr.1 == 1 && pr.2 != 1)
    tp := pairs.countP (fun pr => pr.1 == 1 && pr.2 == 1) }

/-- Modelled from the spec: precision = TP / (TP + FP), with the conventional
value 0 when no positive predictions exist. -/
def precisionOf (m : ConfusionMatrix) : ℚ :=
  if m.tp + m.fp = 0 then 0 else (m.tp : ℚ) / ((m.tp : ℚ) + (m.fp : ℚ))

/-- Modelled from the spec: recall = TP / (TP + FN), 0 when no positives. -/
def recallOf (m : ConfusionMatrix) : ℚ :=
  if m.tp + m.fn = 0 then 0 else (m.tp : ℚ) / ((m.tp : ℚ) + (m.fn : ℚ))

/-- Modelled from the spec: F1 = 2 TP / (2 TP + FP + FN), 0 when the
denominator vanishes. -/
def f1Of (m : ConfusionMatrix) : ℚ :=
  if 2 * m.tp + m.fp + m.fn = 0 then 0
  else (2 * m.tp : ℚ) / ((2 * m.tp : ℚ) + (m.fp : ℚ) + (m.fn : ℚ))

/-- Confusion matrix obtained by thresholding the scores at `t`. -/
def confusionAt (yTrue : List Nat) (yScore : List ℚ) (t : ℚ) : ConfusionMatrix :=
  confusion yTrue (predFromThreshold yScore t)

/-- True-positive count at threshold `t` (building block of the ROC sweep). -/
def tpAt (yTrue : List Nat) (yScore : List ℚ) (t : ℚ) : Nat :=
  (confusionAt yTrue yScore t).tp

/-- False-positive count at threshold `t` (building block of the ROC sweep). -/
def fpAt (yTrue : List Nat) (yScore : List ℚ) (t : ℚ) : Nat :=
  (confusionAt yTrue yScore t).fp

/-- F1 score obtained by using `t` as the decision threshold. -/
def f1AtThreshold (yTrue : List Nat) (yScore : List ℚ) (t : ℚ) : ℚ :=
  f1Of (confusionAt yTrue yScore t)

/-- Modelled from the spec: candidate thresholds of the argmax-F1 search are
the distinct values occurring in `y_score` plus the boundary values 0 and 1
(§4.1). -/
def candidateThresholds (yScore : List ℚ) : List ℚ :=
  (0 :: 1 :: yScore).dedup

/-- One selection step of the threshold search: move to the new candidate `x`
exactly when it has strictly larger F1, or equal F1 and a lower threshold. -/
def pickThreshold (yTrue : List Nat) (yScore : List ℚ) (a x : ℚ) : ℚ :=
  if f1AtThreshold yTrue yScore a < f1AtThreshold yTrue yScore x ∨
      (f1AtThreshold yTrue yScore x = f1AtThreshold yTrue yScore a ∧ x < a) then x
  else a

/-- Modelled from the spec: exhaustive threshold search over the candidate
thresholds, selecting the F1-maximising threshold and breaking ties by
preferring the lower threshold (§4.1). -/
def bestThreshold (yTrue : List Nat) (yScore : List ℚ) : ℚ :=
  match candidateThresholds yScore with
  | [] => 0
  | c :: cs => cs.foldl (pickThreshold yTrue yScore) c

/-- Number of ground-truth positives. -/
def posCount (yTrue : List Nat) : Nat := yTrue.countP (fun v => v == 1)

/-- Number of ground-truth negatives. -/
def negCount (yTrue : List Nat) : Nat := yTrue.countP (fun v => v != 1)

/-- Insert into a descending-sorted list, keeping it descending. -/
def insertDesc (x : ℚ) : List ℚ → List ℚ
  | [] => [x]
  | y :: ys => if y < x then x :: y :: ys else y :: insertDesc x ys

/-- Sort a list of rationals in descending order. -/
def sortDesc (l : List ℚ) : List ℚ := l.foldr insertDesc []

/-- Modelled from the spec: the threshold sweep runs over all distinct score
values in descending order from threshold 1 down to threshold 0 (§4.1 notes,
§3 curve orientation). -/
def sweepThresholds (yScore : List ℚ) : List ℚ :=
  sortDesc ((0 :: 1 :: yScore).dedup)

/-- Modelled from the spec: ROC curve as the ordered (FPR, TPR) pairs of the
descending threshold sweep. -/
def rocCurve (yTrue : List Nat) (yScore : List ℚ) : List (ℚ × ℚ) :=
  (sweepThresholds yScore).map (fun t =>
    ((fpAt yTrue yScore t : ℚ) / (negCount yTrue : ℚ),
     (tpAt yTrue yScore t : ℚ) / (posCount yTrue : ℚ)))

/-- Modelled from the spec: PR curve as the ordered (recall, precision) pairs
of the descending threshold sweep. -/
def prCurve (yTrue : List Nat) (yScore : List ℚ) : List (ℚ × ℚ) :=
  (sweepThresholds yScore).map (fun t =>
    (recallOf (confusionAt yTrue yScore t),
     precisionOf (confusionAt yTrue yScore t)))

/-- Trapezoidal integration over a polyline given as (x, y) points (§4.1). -/
def trapezoid : List (ℚ × ℚ) → ℚ
  | p :: q :: rest => (q.1 - p.1) * (p.2 + q.2) / 2 + trapezoid (q :: rest)
  | _ => 0

/-- Modelled from the spec: AUC-ROC by trapezoidal integration, undefined
(flagged as `none`) when the ground truth is all one class (§4.1). -/
def aucRocOf (yTrue : List Nat) (yScore : List ℚ) : Option ℚ :=
  if posCount yTrue = 0 ∨ negCount yTrue = 0 then none
  else some (trapezoid (rocCurve yTrue yScore))

/-- Modelled from the spec: AUC-PR by trapezoidal integration, undefined
(flagged as `none`) when the ground truth is all one class (§4.1). -/
def aucPrOf (yTrue : List Nat) (yScore : List ℚ) : Option ℚ :=
  if posCount yTrue = 0 ∨ negCount yTrue = 0 then none
  else some (trapezoid (prCurve yTrue yScore))

/-- Modelled from the spec: typed error identifying which input invariant
failed (§7 error taxonomy, §4.1 failure semantics). -/
inductive EvalError where
  | lengthMismatch
  | emptyInput
  | labelDomain
  | scoreDomain
  | predDomain
  | thresholdDomain
deriving Repr, DecidableEq

/-- Ground-truth / predicted label sequences may contain only 0 and 1. -/
def validLabels (l : List Nat) : Bool := l.all (fun v => v == 0 || v == 1)

/-- Score sequences may contain only values in the interval [0, 1]. -/
def validScores (s : List ℚ) : Bool :=
  s.all (fun v => decide (0 ≤ v) && decide (v ≤ 1))

/-- Modelled from the spec: the Classification Report record — used threshold,
confusion matrix, scalar metrics, AUCs (flagged `none` when undefined), curve
point sequences, and class names (§3). -/
structure ClassificationReport where
  usedThreshold : Option ℚ
  matrix : ConfusionMatrix
  accuracy : ℚ
  precision : ℚ
  recallScore : ℚ
  f1score : ℚ
  aucRoc : Option ℚ
  aucPr : Option ℚ
  rocPoints : List (ℚ × ℚ)
  prPoints : List (ℚ × ℚ)
  classNames : List String
deriving Repr, DecidableEq

/-- Full input precondition of `evaluate` (§3 invariant plus the §4.1
constraints on `y_pred` and `decision_threshold`). -/
def validInput (yTrue : List Nat) (yScore : List ℚ) (yPred : Option (List Nat))
    (decisionThreshold : Option ℚ) : Bool :=
  yTrue.length == yScore.length &&
  (yPred.all fun p => p.length == yTrue.length) &&
  decide (yTrue.length ≠ 0) &&
  validLabels yTrue &&
  validScores yScore &&
  (yPred.all fun p => validLabels p) &&
  (decisionThreshold.all fun t => decide (0 ≤ t) && decide (t ≤ 1))

/-- The hard labels `evaluate` scores against: a supplied `y_pred` is used
directly; otherwise labels are derived from the supplied threshold, or from
the result of the threshold search when no threshold is given (§4.1). -/
def labelsUsed (yTrue : List Nat) (yScore : List ℚ) (yPred : Option (List Nat))
    (decisionThreshold : Option ℚ) : List Nat :=
  match yPred with
  | some p => p
  | none =>
    match decisionThreshold with
    | some t => predFromThreshold yScore t
    | none => predFromThreshold yScore (bestThreshold yTrue yScore)

/-- The threshold recorded in the report: the supplied one when given, the
searched one when the search ran, and none when `y_pred` alone decided. -/
def thresholdUsed (yTrue : List Nat) (yScore : List ℚ) (yPred : Option (List Nat))
    (decisionThreshold : Option ℚ) : Option ℚ :=
  match decisionThreshold with
  | some t => some t
  | none =>
    match yPred with
    | some _ => none
    | none => some (bestThreshold yTrue yScore)

/-- Modelled from the spec: the Binary Classification Evaluator operation
`evaluate(y_true, y_score, y_pred=None, decision_threshold=None, class_names,
title)` (§4.1) — validates the input invariants, fails fast with a typed
error, and otherwise returns the full Classification Report. -/
def evaluate (yTrue : List Nat) (yScore : List ℚ) (yPred : Option (List Nat))
    (decisionThreshold : Option ℚ) (classNames : List String) (title : String) :
    Except EvalError ClassificationReport :=
  if yTrue.length != yScore.length then Except.error EvalError.lengthMismatch
  else if !(yPred.all fun p => p.length == yTrue.length) then
    Except.error EvalError.lengthMismatch
  else if yTrue.length == 0 then Except.error EvalError.emptyInput
  else if !validLabels yTrue then Except.error EvalError.labelDomain
  else if !validScores yScore then Except.error EvalError.scoreDomain
  else if !(yPred.all fun p => validLabels p) then Except.error EvalError.predDomain
  else if !(decisionThreshold.all fun t => decide (0 ≤ t) && decide (t ≤ 1)) then
    Except.error EvalError.thresholdDomain
  else
    let _ := title
    let m := confusion yTrue (labelsUsed yTrue yScore yPred decisionThreshold)
    Except.ok
      { usedThreshold := thresholdUsed yTrue yScore yPred decisionThreshold
        matrix := m
        accuracy := ((m.tp : ℚ) + (m.tn : ℚ)) / (yTrue.length : ℚ)
        precision := precisionOf m
        recallScore := recallOf m
        f1score := f1Of m
        aucRoc := aucRocOf yTrue yScore
        aucPr := aucPrOf yTrue yScore
        rocPoints := rocCurve yTrue yScore
        prPoints := prCurve yTrue yScore
        classNames := classNames }

/-- `true` exactly on the error outcome of an `Except` computation. -/
def isError {ε α : Type} : Except ε α → Bool
  | Except.error _ => true
  | Except.ok _ => false

/-- The precondition list exactly as claim C3 enumerates it: length mismatch
(including a supplied `y_pred`), empty input, label-domain violation, or
score-domain violation — with no clause for the domains of `y_pred` values or
of `decision_threshold`. -/
def claimedViolation (yTrue : List Nat) (yScore : List ℚ)
    (yPred : Option (List Nat)) : Bool :=
  yTrue.length != yScore.length ||
  !(yPred.all fun p => p.length == yTrue.length) ||
  yTrue.length == 0 ||
  !validLabels yTrue ||
  !validScores yScore

end Reporting

namespace DataPrep

/-- `np.split(ary, [i, j])`: the three consecutive slices `ary[:i]`,
`ary[i:j]`, `ary[j:]`, with Python slice clamping. -/
def npSplitAt2 {α : Type} (l : List α) (i j : Nat) :
    List α × List α × List α :=
  (l.take i, (l.drop i).take (j - i), l.drop j)

/-- Numerator of the IEEE-754 binary64 value written `0.7` in the source:
the double nearest 0.7 is exactly `float07 / 2^53` (0.7 rounds down). -/
def float07 : Nat := 6305039478318694

/-- Numerator of the IEEE-754 binary64 value written `0.9` in the source:
the double nearest 0.9 is exactly `float09 / 2^53` (0.9 rounds up). -/
def float09 : Nat := 8106479329266893

/-- Number of halvings of `a` until it is below `2^53` — the number of bits
of `a` in excess of the 53-bit binary64 significand.  Fuel-driven recursion;
`a` itself is always sufficient fuel. -/
def shiftAux : Nat → Nat → Nat
  | 0, _ => 0
  | fuel + 1, a => if a < 9007199254740992 then 0 else shiftAux fuel (a / 2) + 1

/-- Excess bits of `a` beyond a 53-bit significand. -/
def shiftFor (a : Nat) : Nat := shiftAux a a

/-- Round `a / 2^d` to the nearest integer, ties to even — the IEEE-754
default rounding applied to a significand with `d` excess bits. -/
def roundNearestEven (a d : Nat) : Nat :=
  if 2 ^ (d - 1) < a % 2 ^ d ∨
      (a % 2 ^ d = 2 ^ (d - 1) ∧ (a / 2 ^ d) % 2 = 1) then
    a / 2 ^ d + 1
  else a / 2 ^ d

/-- Python's `int(x * n)` for a binary64 `x = c / 2^53` and an integer `n`
that is exactly representable as binary64: the exact product `c * n / 2^53`
is rounded to 53 significant bits (round to nearest, ties to even) and the
resulting double is truncated toward zero. -/
def pyIntTimesFloat (c n : Nat) : Nat :=
  if shiftFor (c * n) = 0 then c * n / 9007199254740992
  else
    roundNearestEven (c * n) (shiftFor (c * n)) * 2 ^ shiftFor (c * n) /
      9007199254740992

/-- The AutoGluon notebook's three-way split of the shuffled dataframe:
`np.split(df, [int(0.7 * len(df)), int(0.9 * len(df))])`, with the cut
points embedded as exact binary64 arithmetic — `0.7` and `0.9` are the
doubles `float07 / 2^53` and `float09 / 2^53`, their products with `len(df)`
are rounded to nearest (ties to even) and truncated, matching CPython. -/
def autogluonSplit {α : Type} (l : List α) : List α × List α × List α :=
  npSplitAt2 l (pyIntTimesFloat float07 l.length)
    (pyIntTimesFloat float09 l.length)

end DataPrep

namespace CfnTrigger

/-- Outcome status of a CloudFormation custom-resource response. -/
inductive Status where
  | SUCCESS
  | FAILED
deriving Repr, DecidableEq

/-- One `cfnresponse.send` call: the status and the Reason field posted back
to CloudFormation. -/
structure CfnResponse where
  status : Status
  reason : String
deriving Repr, DecidableEq

/-- The `RequestType` field of a CloudFormation custom-resource event. -/
inductive RequestType where
  | create
  | update
  | delete
  | other (name : String)
deriving Repr, DecidableEq

/-- Behaviour of one of the `handle_create` / `handle_update` /
`handle_delete` helpers as observed by `lambda_handler`: it either returns
normally or raises an exception with a message, in both cases after having
itself sent some (possibly empty) list of responses. -/
inductive HandlerOutcome where
  | ok (sent : List CfnResponse)
  | raises (sent : List CfnResponse) (msg : String)
deriving Repr, DecidableEq

/-- The CodeBuild-trigger `lambda_handler` of the quick-start template:
dispatches on the event's `RequestType` to the matching handler, sends a
FAILED response naming any unsupported request type, and on any exception
from the dispatch sends a FAILED response whose Reason is the exception's
message and then re-raises it.  The result is the ordered list of responses
sent to CloudFormation, paired with the message of the re-raised exception
when one escapes. -/
def lambda_handler (hCreate hUpdate hDelete : HandlerOutcome)
    (rt : RequestType) : List CfnResponse × Option String :=
  let run : HandlerOutcome → List CfnResponse × Option String := fun h =>
    match h with
    | HandlerOutcome.ok sent => (sent, none)
    | HandlerOutcome.raises sent msg =>
      (sent ++ [{ status := Status.FAILED, reason := msg }], some msg)
  match rt with
  | RequestType.create => run hCreate
  | RequestType.update => run hUpdate
  | RequestType.delete => run hDelete
  | RequestType.other name =>
    ([{ status := Status.FAILED,
        reason := "Unsupported CFN RequestType " ++ name }], none)

end CfnTrigger

namespace Reporting

lemma countP_quad (l : List (Nat × Nat)) :
    l.countP (fun pr => pr.1 != 1 && pr.2 != 1) +
    l.countP (fun pr => pr.1 != 1 && pr.2 == 1) +
    l.countP (fun pr => pr.1 == 1 && pr.2 != 1) +
    l.countP (fun pr => pr.1 == 1 && pr.2 == 1) = l.length := by
  induction l with
  | nil => rfl
  | cons p l ih =>
    by_cases h1 : p.1 = 1 <;> by_cases h2 : p.2 = 1 <;>
      simp [List.countP_cons, h1, h2] <;> omega

lemma validInput_parts {yt : List Nat} {ys : List ℚ} {yp : Option (List Nat)}
    {dt : Option ℚ} (h : validInput yt ys yp dt = true) :
    (yt.length == ys.length) = true ∧
    (yp.all fun p => p.length == yt.length) = true ∧
    yt.length ≠ 0 ∧
    validLabels yt = true ∧
    validScores ys = true ∧
    (yp.all fun p => validLabels p) = true ∧
    (dt.all fun t => decide (0 ≤ t) && decide (t ≤ 1)) = true := by
  simp only [validInput, Bool.and_eq_true, decide_eq_true_eq] at h
  exact ⟨h.1.1.1.1.1.1, h.1.1.1.1.1.2, h.1.1.1.1.2, h.1.1.1.2, h.1.1.2, h.1.2, h.2⟩

lemma evaluate_eq_ok (yt : List Nat) (ys : List ℚ) (yp : Option (List Nat))
    (dt : Option ℚ) (cn : List String) (ttl : String)
    (h : validInput yt ys yp dt = true) :
    evaluate yt ys yp dt cn ttl = Except.ok
      { usedThreshold := thresholdUsed yt ys yp dt
        matrix := confusion yt (labelsUsed yt ys yp dt)
        accuracy := (((confusion yt (labelsUsed yt ys yp dt)).tp : ℚ) +
          ((confusion yt (labelsUsed yt ys yp dt)).tn : ℚ)) / (yt.length : ℚ)
        precision := precisionOf (confusion yt (labelsUsed yt ys yp dt))
        recallScore := recallOf (confusion yt (labelsUsed yt ys yp dt))
        f1score := f1Of (confusion yt (labelsUsed yt ys yp dt))
        aucRoc := aucRocOf yt ys
        aucPr := aucPrOf yt ys
        rocPoints := rocCurve yt ys
        prPoints := prCurve yt ys
        classNames := cn } := by
  obtain ⟨h1, h2, h3, h4, h5, h6, h7⟩ := validInput_parts h
  unfold evaluate
  simp [bne, h1, h2, h3, h4, h5, h6, h7]

lemma labelsUsed_length {yt : List Nat} {ys : List ℚ} {yp : Option (List Nat)}
    {dt : Option ℚ} (h : validInput yt ys yp dt = true) :
    (labelsUsed yt ys yp dt).length = yt.length := by
  obtain ⟨h1, h2, _, _, _, _, _⟩ := validInput_parts h
  cases yp with
  | some p =>
    simp only [Option.all_some, beq_iff_eq] at h2
    simpa [labelsUsed] using h2
  | none =>
    have hlen : yt.length = ys.length := by simpa using h1
    cases dt <;> simp [labelsUsed, predFromThreshold, ← hlen]

/-- C5: for every well-formed input, the four confusion-matrix counts of the
returned report sum to exactly N, the common input length. -/
theorem evaluate_matrix_counts_sum (yt : List Nat) (ys : List ℚ)
    (yp : Option (List Nat)) (dt : Option ℚ) (cn : List String) (ttl : String)
    (h : validInput yt ys yp dt = true) :
    ∃ rep, evaluate yt ys yp dt cn ttl = Except.ok rep ∧
      rep.matrix.tn + rep.matrix.fp + rep.matrix.fn + rep.matrix.tp = yt.length := by
  refine ⟨_, evaluate_eq_ok yt ys yp dt cn ttl h, ?_⟩
  have hzip : (yt.zip (labelsUsed yt ys yp dt)).length = yt.length := by
    simp [List.length_zip, labelsUsed_length h]
  simpa [confusion, hzip] using countP_quad (yt.zip (labelsUsed yt ys yp dt))

/-- Witness for C5 at a concrete well-formed input. -/
theorem evaluate_matrix_counts_sum_witness :
    ∃ rep, evaluate [0, 1] [mkRat 1 4, mkRat 3 4] none none ["n", "p"] "w"
        = Except.ok rep ∧
      rep.matrix.tn + rep.matrix.fp + rep.matrix.fn + rep.matrix.tp = 2 :=
  evaluate_matrix_counts_sum [0, 1] [mkRat 1 4, mkRat 3 4] none none ["n", "p"] "w"
    (by with_unfolding_all decide)

lemma evaluate_error_of_invalid (yt : List Nat) (ys : List ℚ)
    (yp : Option (List Nat)) (dt : Option ℚ) (cn : List String) (ttl : String)
    (hv : validInput yt ys yp dt = false) :
    isError (evaluate yt ys yp dt cn ttl) = true := by
  unfold evaluate
  by_cases c1 : (yt.length != ys.length) = true
  · simp [c1, isError]
  by_cases c2 : (!(yp.all fun p => p.length == yt.length)) = true
  · simp [c1, c2, isError]
  by_cases c3 : (yt.length == 0) = true
  · simp [c1, c2, c3, isError]
  by_cases c4 : (!validLabels yt) = true
  · simp [c1, c2, c3, c4, isError]
  by_cases c5 : (!validScores ys) = true
  · simp [c1, c2, c3, c4, c5, isError]
  by_cases c6 : (!(yp.all fun p => validLabels p)) = true
  · simp [c1, c2, c3, c4, c5, c6, isError]
  by_cases c7 : (!(dt.all fun t => decide (0 ≤ t) && decide (t ≤ 1))) = true
  · simp [c1, c2, c3, c4, c5, c6, c7, isError]
  exfalso
  simp only [Bool.not_eq_true, bne_eq_false_iff_eq, Bool.not_eq_true',
    Bool.not_eq_false, beq_iff_eq] at c1 c2 c3 c4 c5 c6 c7
  simp [validInput, c1, c2, c3, c4, c5, c6, c7] at hv
  rw [c1] at c2 c3
  exact c3 (by rw [hv c2]; rfl)

/-- C3 (amended): `evaluate` returns an error, and hence no report, exactly
when the input precondition is violated — the lengths of y_true, y_score and
a supplied y_pred mismatch, or N = 0, or y_true has a value outside 0/1, or a
y_score value is outside [0, 1], or a supplied y_pred has a value outside
0/1, or a supplied decision threshold lies outside [0, 1]. -/
theorem evaluate_error_iff (yt : List Nat) (ys : List ℚ)
    (yp : Option (List Nat)) (dt : Option ℚ) (cn : List String) (ttl : String) :
    isError (evaluate yt ys yp dt cn ttl) = true ↔
      validInput yt ys yp dt = false := by
  constructor
  · intro he
    cases hvb : validInput yt ys yp dt
    · rfl
    · rw [evaluate_eq_ok yt ys yp dt cn ttl hvb] at he
      simp [isError] at he
  · intro hv
    exact evaluate_error_of_invalid yt ys yp dt cn ttl hv

/-- C3 counterexample: with `y_pred = [2]` supplied, every condition the
claim enumerates holds (lengths match, N = 1, labels and scores in range),
yet `evaluate` raises an error, because y_pred values outside 0/1 are also
rejected — so the claimed "exactly when" equivalence is false as stated. -/
theorem evaluate_error_iff_counterexample :
    isError (evaluate [1] [mkRat 1 2] (some [2]) none ["n", "p"] "c") = true ∧
    claimedViolation [1] [mkRat 1 2] (some [2]) = false := by
  with_unfolding_all decide

/-- C4: on well-formed input whose ground truth is all one class, `evaluate`
does not fail: it returns a report whose AUC-ROC and AUC-PR fields carry the
explicit undefined marker `none` instead of a numeric value. -/
theorem evaluate_degenerate_auc (yt : List Nat) (ys : List ℚ)
    (yp : Option (List Nat)) (dt : Option ℚ) (cn : List String) (ttl : String)
    (h : validInput yt ys yp dt = true)
    (hdeg : posCount yt = 0 ∨ negCount yt = 0) :
    ∃ rep, evaluate yt ys yp dt cn ttl = Except.ok rep ∧
      rep.aucRoc = none ∧ rep.aucPr = none := by
  refine ⟨_, evaluate_eq_ok yt ys yp dt cn ttl h, ?_, ?_⟩ <;>
    simp [aucRocOf, aucPrOf, hdeg]

/-- Witness for C4 at a concrete all-negative ground truth. -/
theorem evaluate_degenerate_auc_witness :
    ∃ rep, evaluate [0, 0] [mkRat 1 4, mkRat 3 4] none (some (mkRat 1 2))
        ["n", "p"] "w" = Except.ok rep ∧
      rep.aucRoc = none ∧ rep.aucPr = none :=
  evaluate_degenerate_auc [0, 0] [mkRat 1 4, mkRat 3 4] none (some (mkRat 1 2))
    ["n", "p"] "w" (by with_unfolding_all decide)
    (Or.inl (by with_unfolding_all decide))

/-- C7: `evaluate` is deterministic — two calls with identical inputs return
identical reports in every field; the output is a function of the inputs
alone. -/
theorem evaluate_deterministic (yt1 yt2 : List Nat) (ys1 ys2 : List ℚ)
    (yp1 yp2 : Option (List Nat)) (dt1 dt2 : Option ℚ)
    (cn1 cn2 : List String) (t1 t2 : String)
    (h1 : yt1 = yt2) (h2 : ys1 = ys2) (h3 : yp1 = yp2) (h4 : dt1 = dt2)
    (h5 : cn1 = cn2) (h6 : t1 = t2) :
    evaluate yt1 ys1 yp1 dt1 cn1 t1 = evaluate yt2 ys2 yp2 dt2 cn2 t2 := by
  rw [h1, h2, h3, h4, h5, h6]

/-- C1: on `y_true = [0,0,1,1]`, `y_score = [0.1, 0.4, 0.35, 0.8]` with
decision threshold 0.5, the derived labels are [0, 0, 0, 1] and the report
has confusion matrix TN = 2, FP = 0, FN = 1, TP = 1, accuracy 3/4,
precision 1, recall 1/2 and F1 = 2/3. -/
theorem evaluate_concrete_scenario :
    predFromThreshold [1/10, 2/5, 7/20, 4/5] (1/2) = [0, 0, 0, 1] ∧
    (evaluate [0, 0, 1, 1] [1/10, 2/5, 7/20, 4/5] none (some (1/2))
        ["negative", "positive"] "demo").toOption.map
      (fun rep => (rep.matrix, rep.accuracy, rep.precision, rep.recallScore,
        rep.f1score))
      = some (⟨2, 0, 1, 1⟩, 3/4, 1, 1/2, 2/3) := by
  with_unfolding_all decide

lemma pickThreshold_good_left (yt : List Nat) (ys : List ℚ) (a x : ℚ) :
    f1AtThreshold yt ys a < f1AtThreshold yt ys (pickThreshold yt ys a x) ∨
    (f1AtThreshold yt ys a = f1AtThreshold yt ys (pickThreshold yt ys a x) ∧
      pickThreshold yt ys a x ≤ a) := by
  unfold pickThreshold
  split
  · rename_i hc
    rcases hc with hlt | ⟨he, hxa⟩
    · exact Or.inl hlt
    · exact Or.inr ⟨he.symm, le_of_lt hxa⟩
  · exact Or.inr ⟨rfl, le_refl a⟩

lemma pickThreshold_good_right (yt : List Nat) (ys : List ℚ) (a x : ℚ) :
    f1AtThreshold yt ys x < f1AtThreshold yt ys (pickThreshold yt ys a x) ∨
    (f1AtThreshold yt ys x = f1AtThreshold yt ys (pickThreshold yt ys a x) ∧
      pickThreshold yt ys a x ≤ x) := by
  unfold pickThreshold
  split
  · exact Or.inr ⟨rfl, le_refl x⟩
  · rename_i hc
    push_neg at hc
    rcases lt_or_eq_of_le hc.1 with hlt | he
    · exact Or.inl hlt
    · exact Or.inr ⟨he, hc.2 he⟩

lemma good_trans (f : ℚ → ℚ) (r b x : ℚ)
    (h1 : f b < f r ∨ (f b = f r ∧ r ≤ b))
    (h2 : f x < f b ∨ (f x = f b ∧ b ≤ x)) :
    f x < f r ∨ (f x = f r ∧ r ≤ x) := by
  rcases h1 with h1 | ⟨h1e, h1le⟩ <;> rcases h2 with h2 | ⟨h2e, h2le⟩
  · exact Or.inl (h2.trans h1)
  · exact Or.inl (h2e.trans_lt h1)
  · exact Or.inl (h2.trans_eq h1e)
  · exact Or.inr ⟨h2e.trans h1e, h1le.trans h2le⟩

lemma foldl_pickThreshold_mem (yt : List Nat) (ys : List ℚ) :
    ∀ (cs : List ℚ) (c : ℚ), cs.foldl (pickThreshold yt ys) c ∈ c :: cs := by
  intro cs
  induction cs with
  | nil => intro c; simp
  | cons y cs ih =>
    intro c
    have hp : pickThreshold yt ys c y = c ∨ pickThreshold yt ys c y = y := by
      unfold pickThreshold
      split
      · exact Or.inr rfl
      · exact Or.inl rfl
    have hm := ih (pickThreshold yt ys c y)
    simp only [List.foldl_cons]
    rcases List.mem_cons.mp hm with h | h
    · rw [h]
      rcases hp with hp | hp <;> rw [hp]
      · exact List.mem_cons_self c (y :: cs)
      · exact List.mem_cons_of_mem c (List.mem_cons_self y cs)
    · exact List.mem_cons_of_mem c (List.mem_cons_of_mem y h)

lemma foldl_pickThreshold_good (yt : List Nat) (ys : List ℚ) :
    ∀ (cs : List ℚ) (c : ℚ), ∀ x ∈ c :: cs,
      f1AtThreshold yt ys x <
          f1AtThreshold yt ys (cs.foldl (pickThreshold yt ys) c) ∨
        (f1AtThreshold yt ys x =
            f1AtThreshold yt ys (cs.foldl (pickThreshold yt ys) c) ∧
          cs.foldl (pickThreshold yt ys) c ≤ x) := by
  intro cs
  induction cs with
  | nil =>
    intro c x hx
    simp only [List.mem_singleton] at hx
    subst hx
    exact Or.inr ⟨rfl, le_refl x⟩
  | cons y cs ih =>
    intro c x hx
    simp only [List.foldl_cons]
    rcases List.mem_cons.mp hx with hx | hx
    · subst hx
      exact good_trans (f1AtThreshold yt ys) _ _ _
        (ih (pickThreshold yt ys x y) _
          (List.mem_cons_self (pickThreshold yt ys x y) cs))
        (pickThreshold_good_left yt ys x y)
    · rcases List.mem_cons.mp hx with hx | hx
      · subst hx
        exact good_trans (f1AtThreshold yt ys) _ _ _
          (ih (pickThreshold yt ys c x) _
            (List.mem_cons_self (pickThreshold yt ys c x) cs))
          (pickThreshold_good_right yt ys c x)
      · exact ih (pickThreshold yt ys c y) x (List.mem_cons_of_mem _ hx)

/-- Witness for C7 at a concrete input. -/
theorem evaluate_deterministic_witness :
    evaluate [0, 1] [mkRat 1 4, mkRat 3 4] none none ["n", "p"] "w" =
      evaluate [0, 1] [mkRat 1 4, mkRat 3 4] none none ["n", "p"] "w" :=
  evaluate_deterministic [0, 1] [0, 1] [mkRat 1 4, mkRat 3 4]
    [mkRat 1 4, mkRat 3 4] none none none none ["n", "p"] ["n", "p"] "w" "w"
    rfl rfl rfl rfl rfl rfl

lemma bestThreshold_spec (yt : List Nat) (ys : List ℚ) :
    bestThreshold yt ys ∈ candidateThresholds ys ∧
    ∀ x ∈ candidateThresholds ys,
      f1AtThreshold yt ys x ≤ f1AtThreshold yt ys (bestThreshold yt ys) ∧
      (f1AtThreshold yt ys x = f1AtThreshold yt ys (bestThreshold yt ys) →
        bestThreshold yt ys ≤ x) := by
  have hne : candidateThresholds ys ≠ [] := by
    simp [candidateThresholds, List.dedup_eq_nil]
  obtain ⟨c, cs, hcc⟩ := List.exists_cons_of_ne_nil hne
  have hbt : bestThreshold yt ys = cs.foldl (pickThreshold yt ys) c := by
    unfold bestThreshold
    rw [hcc]
  constructor
  · rw [hbt, hcc]
    exact foldl_pickThreshold_mem yt ys cs c
  · intro x hx
    rw [hcc] at hx
    have hg := foldl_pickThreshold_good yt ys cs c x hx
    rw [← hbt] at hg
    rcases hg with h | ⟨he, hle⟩
    · exact ⟨le_of_lt h, fun heq => absurd heq (ne_of_lt h)⟩
    · exact ⟨le_of_eq he, fun _ => hle⟩

/-- C2: with neither `y_pred` nor a threshold supplied, `evaluate` runs the
exhaustive threshold search: the candidate set is exactly the distinct values
of `y_score` plus the boundaries 0 and 1, the selected threshold is a
candidate whose F1 is maximal among all candidates, and any candidate tying
that maximal F1 is at or above the selected (lower-preferred) threshold. -/
theorem evaluate_threshold_search (yt : List Nat) (ys : List ℚ)
    (cn : List String) (ttl : String)
    (h : validInput yt ys none none = true) :
    ∃ rep, evaluate yt ys none none cn ttl = Except.ok rep ∧
      rep.usedThreshold = some (bestThreshold yt ys) ∧
      (∀ t : ℚ, t ∈ candidateThresholds ys ↔ (t = 0 ∨ t = 1 ∨ t ∈ ys)) ∧
      bestThreshold yt ys ∈ candidateThresholds ys ∧
      (∀ t ∈ candidateThresholds ys,
        f1AtThreshold yt ys t ≤ f1AtThreshold yt ys (bestThreshold yt ys)) ∧
      (∀ t ∈ candidateThresholds ys,
        f1AtThreshold yt ys t = f1AtThreshold yt ys (bestThreshold yt ys) →
          bestThreshold yt ys ≤ t) := by
  obtain ⟨hmem, hopt⟩ := bestThreshold_spec yt ys
  refine ⟨_, evaluate_eq_ok yt ys none none cn ttl h, rfl, ?_, hmem,
    fun t ht => (hopt t ht).1, fun t ht => (hopt t ht).2⟩
  intro t
  simp [candidateThresholds, List.mem_dedup]

/-- Witness for C2 at the concrete scenario data. -/
theorem evaluate_threshold_search_witness :
    ∃ rep, evaluate [0, 0, 1, 1] [mkRat 1 10, mkRat 2 5, mkRat 7 20, mkRat 4 5]
        none none ["n", "p"] "w" = Except.ok rep ∧
      rep.usedThreshold = some (bestThreshold [0, 0, 1, 1]
        [mkRat 1 10, mkRat 2 5, mkRat 7 20, mkRat 4 5]) ∧
      (∀ t : ℚ, t ∈ candidateThresholds
          [mkRat 1 10, mkRat 2 5, mkRat 7 20, mkRat 4 5] ↔
        (t = 0 ∨ t = 1 ∨ t ∈ [mkRat 1 10, mkRat 2 5, mkRat 7 20, mkRat 4 5])) ∧
      bestThreshold [0, 0, 1, 1] [mkRat 1 10, mkRat 2 5, mkRat 7 20, mkRat 4 5]
        ∈ candidateThresholds [mkRat 1 10, mkRat 2 5, mkRat 7 20, mkRat 4 5] ∧
      (∀ t ∈ candidateThresholds [mkRat 1 10, mkRat 2 5, mkRat 7 20, mkRat 4 5],
        f1AtThreshold [0, 0, 1, 1]
            [mkRat 1 10, mkRat 2 5, mkRat 7 20, mkRat 4 5] t ≤
          f1AtThreshold [0, 0, 1, 1]
            [mkRat 1 10, mkRat 2 5, mkRat 7 20, mkRat 4 5]
            (bestThreshold [0, 0, 1, 1]
              [mkRat 1 10, mkRat 2 5, mkRat 7 20, mkRat 4 5])) ∧
      (∀ t ∈ candidateThresholds [mkRat 1 10, mkRat 2 5, mkRat 7 20, mkRat 4 5],
        f1AtThreshold [0, 0, 1, 1]
            [mkRat 1 10, mkRat 2 5, mkRat 7 20, mkRat 4 5] t =
          f1AtThreshold [0, 0, 1, 1]
            [mkRat 1 10, mkRat 2 5, mkRat 7 20, mkRat 4 5]
            (bestThreshold [0, 0, 1, 1]
              [mkRat 1 10, mkRat 2 5, mkRat 7 20, mkRat 4 5]) →
          bestThreshold [0, 0, 1, 1]
              [mkRat 1 10, mkRat 2 5, mkRat 7 20, mkRat 4 5] ≤ t) :=
  evaluate_threshold_search [0, 0, 1, 1]
    [mkRat 1 10, mkRat 2 5, mkRat 7 20, mkRat 4 5] ["n", "p"] "w"
    (by with_unfolding_all decide)

lemma tpAt_eq (yt : List Nat) (ys : List ℚ) (t : ℚ) :
    tpAt yt ys t =
      (yt.zip ys).countP (fun pr => pr.1 == 1 && decide (t ≤ pr.2)) := by
  unfold tpAt confusionAt confusion predFromThreshold
  simp only [List.zip_map_right, List.countP_map]
  apply List.countP_congr
  intro pr _
  by_cases ht : t ≤ pr.2 <;> simp [Function.comp, ht]

lemma fpAt_eq (yt : List Nat) (ys : List ℚ) (t : ℚ) :
    fpAt yt ys t =
      (yt.zip ys).countP (fun pr => pr.1 != 1 && decide (t ≤ pr.2)) := by
  unfold fpAt confusionAt confusion predFromThreshold
  simp only [List.zip_map_right, List.countP_map]
  apply List.countP_congr
  intro pr _
  by_cases ht : t ≤ pr.2 <;> simp [Function.comp, ht]

/-- C6: sweeping the decision threshold downward (t2 ≤ t1), the
true-positive and false-positive counts behind the ROC curve points are each
non-decreasing. -/
theorem roc_counts_monotone (yt : List Nat) (ys : List ℚ) (t1 t2 : ℚ)
    (h : t2 ≤ t1) :
    tpAt yt ys t1 ≤ tpAt yt ys t2 ∧ fpAt yt ys t1 ≤ fpAt yt ys t2 := by
  constructor
  · rw [tpAt_eq, tpAt_eq]
    apply List.countP_mono_left
    intro pr _ hp
    simp only [Bool.and_eq_true, decide_eq_true_eq] at hp ⊢
    exact ⟨hp.1, le_trans h hp.2⟩
  · rw [fpAt_eq, fpAt_eq]
    apply List.countP_mono_left
    intro pr _ hp
    simp only [Bool.and_eq_true, decide_eq_true_eq] at hp ⊢
    exact ⟨hp.1, le_trans h hp.2⟩

/-- Witness for C6 at concrete thresholds 3/4 ≥ 1/4. -/
theorem roc_counts_monotone_witness :
    tpAt [0, 1] [mkRat 1 4, mkRat 3 4] (mkRat 3 4) ≤
      tpAt [0, 1] [mkRat 1 4, mkRat 3 4] (mkRat 1 4) ∧
    fpAt [0, 1] [mkRat 1 4, mkRat 3 4] (mkRat 3 4) ≤
      fpAt [0, 1] [mkRat 1 4, mkRat 3 4] (mkRat 1 4) :=
  roc_counts_monotone [0, 1] [mkRat 1 4, mkRat 3 4] (mkRat 3 4) (mkRat 1 4)
    (by with_unfolding_all decide)

/-- C8: when `y_pred` is supplied, the confusion matrix is computed from it
directly — it equals `confusion y_true y_pred` whatever the threshold
argument — and the threshold-dependent scalar metrics agree across any two
valid score vectors, i.e. the label-based metrics do not depend on
`y_score`. -/
theorem evaluate_ypred_direct (yt : List Nat) (ys1 ys2 : List ℚ)
    (p : List Nat) (dt : Option ℚ) (cn : List String) (ttl : String)
    (h1 : validInput yt ys1 (some p) dt = true)
    (h2 : validInput yt ys2 (some p) dt = true) :
    ∃ r1 r2, evaluate yt ys1 (some p) dt cn ttl = Except.ok r1 ∧
      evaluate yt ys2 (some p) dt cn ttl = Except.ok r2 ∧
      r1.matrix = confusion yt p ∧
      r2.matrix = confusion yt p ∧
      r1.accuracy = r2.accuracy ∧
      r1.precision = r2.precision ∧
      r1.recallScore = r2.recallScore ∧
      r1.f1score = r2.f1score :=
  ⟨_, _, evaluate_eq_ok yt ys1 (some p) dt cn ttl h1,
    evaluate_eq_ok yt ys2 (some p) dt cn ttl h2,
    rfl, rfl, rfl, rfl, rfl, rfl⟩

/-- Witness for C8: two different score vectors, same supplied labels. -/
theorem evaluate_ypred_direct_witness :
    ∃ r1 r2, evaluate [0, 1] [mkRat 1 4, mkRat 3 4] (some [0, 1]) none
        ["n", "p"] "w" = Except.ok r1 ∧
      evaluate [0, 1] [mkRat 9 10, mkRat 1 10] (some [0, 1]) none
        ["n", "p"] "w" = Except.ok r2 ∧
      r1.matrix = confusion [0, 1] [0, 1] ∧
      r2.matrix = confusion [0, 1] [0, 1] ∧
      r1.accuracy = r2.accuracy ∧
      r1.precision = r2.precision ∧
      r1.recallScore = r2.recallScore ∧
      r1.f1score = r2.f1score :=
  evaluate_ypred_direct [0, 1] [mkRat 1 4, mkRat 3 4] [mkRat 9 10, mkRat 1 10]
    [0, 1] none ["n", "p"] "w"
    (by with_unfolding_all decide) (by with_unfolding_all decide)

end Reporting

namespace DataPrep

lemma shiftAux_spec : ∀ (fuel a : Nat), a ≤ fuel → 9007199254740992 ≤ a →
    4503599627370496 * 2 ^ shiftAux fuel a ≤ a ∧
      a < 9007199254740992 * 2 ^ shiftAux fuel a := by
  intro fuel
  induction fuel with
  | zero => intro a ha hb; omega
  | succ fuel ih =>
    intro a ha hb
    have hnot : ¬ a < 9007199254740992 := by omega
    simp only [shiftAux, if_neg hnot]
    by_cases hc : 9007199254740992 ≤ a / 2
    · obtain ⟨l1, l2⟩ := ih (a / 2) (by omega) hc
      rw [pow_succ]
      omega
    · have hz : shiftAux fuel (a / 2) = 0 := by
        cases fuel <;> simp [shiftAux] <;> omega
      rw [hz, pow_succ, pow_zero]
      omega

lemma shiftFor_zero {a : Nat} (h : a < 9007199254740992) : shiftFor a = 0 := by
  unfold shiftFor
  cases a <;> simp [shiftAux] <;> omega

lemma shiftFor_spec {a : Nat} (h : shiftFor a ≠ 0) :
    4503599627370496 * 2 ^ shiftFor a ≤ a ∧
      a < 9007199254740992 * 2 ^ shiftFor a := by
  by_cases hb : 9007199254740992 ≤ a
  · exact shiftAux_spec a a le_rfl hb
  · exact absurd (shiftFor_zero (by omega)) h

lemma roundNearestEven_bounds (a d : Nat) :
    a / 2 ^ d ≤ roundNearestEven a d ∧ roundNearestEven a d ≤ a / 2 ^ d + 1 := by
  unfold roundNearestEven
  split <;> omega

lemma pyIntTimesFloat_bounds (c n : Nat) :
    (c * n - c * n / 4503599627370496) / 9007199254740992 ≤
        pyIntTimesFloat c n ∧
      pyIntTimesFloat c n ≤
        (c * n + c * n / 4503599627370496) / 9007199254740992 := by
  unfold pyIntTimesFloat
  by_cases hd : shiftFor (c * n) = 0
  · rw [if_pos hd]
    constructor <;> apply Nat.div_le_div_right <;> omega
  · rw [if_neg hd]
    obtain ⟨l1, l2⟩ := shiftFor_spec hd
    obtain ⟨r1, r2⟩ := roundNearestEven_bounds (c * n) (shiftFor (c * n))
    have hpow : (0 : Nat) < 2 ^ shiftFor (c * n) :=
      pow_pos (by norm_num) (shiftFor (c * n))
    have hmod : c * n % 2 ^ shiftFor (c * n) < 2 ^ shiftFor (c * n) :=
      Nat.mod_lt _ hpow
    have hqm : c * n / 2 ^ shiftFor (c * n) * 2 ^ shiftFor (c * n) +
        c * n % 2 ^ shiftFor (c * n) = c * n := Nat.div_add_mod' (c * n) _
    have hED : 2 ^ shiftFor (c * n) ≤ c * n / 4503599627370496 := by
      rw [Nat.le_div_iff_mul_le (by norm_num)]
      omega
    have h1 : c * n / 2 ^ shiftFor (c * n) * 2 ^ shiftFor (c * n) ≤
        roundNearestEven (c * n) (shiftFor (c * n)) * 2 ^ shiftFor (c * n) :=
      Nat.mul_le_mul_right _ r1
    have h2 : roundNearestEven (c * n) (shiftFor (c * n)) *
          2 ^ shiftFor (c * n) ≤
        (c * n / 2 ^ shiftFor (c * n) + 1) * 2 ^ shiftFor (c * n) :=
      Nat.mul_le_mul_right _ r2
    have h3 : (c * n / 2 ^ shiftFor (c * n) + 1) * 2 ^ shiftFor (c * n) =
        c * n / 2 ^ shiftFor (c * n) * 2 ^ shiftFor (c * n) +
          2 ^ shiftFor (c * n) := by ring
    constructor <;> apply Nat.div_le_div_right <;> omega

lemma int07_le_int09 (n : Nat) :
    pyIntTimesFloat float07 n ≤ pyIntTimesFloat float09 n := by
  obtain ⟨-, hu⟩ := pyIntTimesFloat_bounds float07 n
  obtain ⟨hl, -⟩ := pyIntTimesFloat_bounds float09 n
  refine hu.trans (le_trans (Nat.div_le_div_right ?_) hl)
  simp only [float07, float09]
  omega

lemma int09_le_len (n : Nat) : pyIntTimesFloat float09 n ≤ n := by
  obtain ⟨-, hu⟩ := pyIntTimesFloat_bounds float09 n
  refine hu.trans ?_
  simp only [float09]
  omega

/-- C9: splitting any permutation `ls` of the dataframe rows at the
binary64 cut points `int(0.7 * N)` and `int(0.9 * N)` partitions it — the
three parts concatenate back to `ls` (so every row lands in exactly one
part), their sizes are `int(0.7 N)`, `int(0.9 N) - int(0.7 N)` and
`N - int(0.9 N)`, and the sizes sum to N, the original row count.  The
hypothesis `N < 2^53` is the range in which `float(N)` is exact, i.e. the
range modelled. -/
theorem autogluonSplit_partition {α : Type} (l ls : List α)
    (hp : List.Perm ls l) (hN : l.length < 9007199254740992) :
    (autogluonSplit ls).1 ++ (autogluonSplit ls).2.1 ++ (autogluonSplit ls).2.2
        = ls ∧
    List.Perm ((autogluonSplit ls).1 ++ (autogluonSplit ls).2.1 ++
        (autogluonSplit ls).2.2) l ∧
    (autogluonSplit ls).1.length = pyIntTimesFloat float07 l.length ∧
    (autogluonSplit ls).2.1.length
        = pyIntTimesFloat float09 l.length - pyIntTimesFloat float07 l.length ∧
    (autogluonSplit ls).2.2.length
        = l.length - pyIntTimesFloat float09 l.length ∧
    (autogluonSplit ls).1.length + (autogluonSplit ls).2.1.length +
        (autogluonSplit ls).2.2.length = l.length := by
  have hlen : ls.length = l.length := hp.length_eq
  have hij : pyIntTimesFloat float07 ls.length ≤
      pyIntTimesFloat float09 ls.length := int07_le_int09 ls.length
  have hjn : pyIntTimesFloat float09 ls.length ≤ ls.length :=
    int09_le_len ls.length
  have hconcat :
      (autogluonSplit ls).1 ++ (autogluonSplit ls).2.1 ++ (autogluonSplit ls).2.2
        = ls := by
    simp only [autogluonSplit, npSplitAt2, List.append_assoc]
    rw [show ls.drop (pyIntTimesFloat float09 ls.length)
          = (ls.drop (pyIntTimesFloat float07 ls.length)).drop
            (pyIntTimesFloat float09 ls.length -
              pyIntTimesFloat float07 ls.length) by
        rw [List.drop_drop]
        congr 1
        omega]
    rw [List.take_append_drop, List.take_append_drop]
  refine ⟨hconcat, by rw [hconcat]; exact hp, ?_, ?_, ?_, ?_⟩ <;>
    simp only [autogluonSplit, npSplitAt2, List.length_take, List.length_drop,
      ← hlen] <;>
    omega

/-- Witness for C9 at a concrete three-element list. -/
theorem autogluonSplit_partition_witness :
    (autogluonSplit [10, 20, 30]).1 ++ (autogluonSplit [10, 20, 30]).2.1 ++
        (autogluonSplit [10, 20, 30]).2.2 = [10, 20, 30] ∧
    List.Perm ((autogluonSplit [10, 20, 30]).1 ++
        (autogluonSplit [10, 20, 30]).2.1 ++
        (autogluonSplit [10, 20, 30]).2.2) [10, 20, 30] ∧
    (autogluonSplit [10, 20, 30]).1.length = pyIntTimesFloat float07 3 ∧
    (autogluonSplit [10, 20, 30]).2.1.length
        = pyIntTimesFloat float09 3 - pyIntTimesFloat float07 3 ∧
    (autogluonSplit [10, 20, 30]).2.2.length
        = 3 - pyIntTimesFloat float09 3 ∧
    (autogluonSplit [10, 20, 30]).1.length +
        (autogluonSplit [10, 20, 30]).2.1.length +
        (autogluonSplit [10, 20, 30]).2.2.length = 3 :=
  autogluonSplit_partition [10, 20, 30] [10, 20, 30] (List.Perm.refl _)
    (by norm_num)

end DataPrep

namespace CfnTrigger

/-- C10: every recognized failure path of `lambda_handler` sends a response
to CloudFormation — if the dispatch raises, the responses end with a FAILED
response whose Reason is the exception's message, sent before the exception
is re-raised; if the request type is unsupported, a FAILED response naming it
is sent and nothing is re-raised. -/
theorem lambda_handler_failure_response (hc hu hd : HandlerOutcome)
    (rt : RequestType) :
    (∀ m, (lambda_handler hc hu hd rt).2 = some m →
      ∃ pre, (lambda_handler hc hu hd rt).1 =
        pre ++ [{ status := Status.FAILED, reason := m }]) ∧
    (∀ nm, rt = RequestType.other nm →
      (lambda_handler hc hu hd rt).1 =
        [{ status := Status.FAILED,
           reason := "Unsupported CFN RequestType " ++ nm }] ∧
      (lambda_handler hc hu hd rt).2 = none) := by
  constructor
  · intro m hm
    cases rt <;> [cases hc; cases hu; cases hd; skip] <;>
      simp [lambda_handler] at hm ⊢ <;> subst hm <;> exact ⟨_, rfl⟩
  · intro nm hn
    subst hn
    simp [lambda_handler]

/-- Witness for C10: one raising dispatch and one unsupported request type. -/
theorem lambda_handler_failure_response_witness :
    (∃ pre, (lambda_handler (HandlerOutcome.raises [] "boom")
        (HandlerOutcome.ok []) (HandlerOutcome.ok []) RequestType.create).1 =
      pre ++ [{ status := Status.FAILED, reason := "boom" }]) ∧
    ((lambda_handler (HandlerOutcome.ok []) (HandlerOutcome.ok [])
        (HandlerOutcome.ok []) (RequestType.other "Bogus")).1 =
      [{ status := Status.FAILED,
         reason := "Unsupported CFN RequestType " ++ "Bogus" }] ∧
      (lambda_handler (HandlerOutcome.ok []) (HandlerOutcome.ok [])
        (HandlerOutcome.ok []) (RequestType.other "Bogus")).2 = none) :=
  ⟨(lambda_handler_failure_response (HandlerOutcome.raises [] "boom")
      (HandlerOutcome.ok []) (HandlerOutcome.ok []) RequestType.create).1
    "boom" rfl,
   (lambda_handler_failure_response (HandlerOutcome.ok []) (HandlerOutcome.ok [])
      (HandlerOutcome.ok []) (RequestType.other "Bogus")).2
    "Bogus" rfl⟩

end CfnTrigger
